import Mathlib

/-!
Verification of the HLTRecHitPlotter repository: a shallow embedding in Lean 4
of the cut-scan module (`helpers/cut.py`, `cut_search.py`), the histogram
plotting classes (`helpers/histogram.py`, `util.py`), and the ROOT-file
readers (`helpers/rootfile.py`, `util.py`), together with theorems about the
behaviour of those functions.

Modelling conventions:
- numpy arrays of floats become `List ℚ`; 2D arrays become `Mat ℚ`
  (a list of rows).
- A numpy `MaskedArray` becomes a pair of a data matrix and a boolean mask
  matrix, where an entry of `true` in the mask means the cell is hidden
  (numpy's convention).
- Python exceptions (`AssertionError`, `KeyError`, `ValueError`, `NameError`)
  become an error type `PyError`, and fallible functions return `Except`.
- The pieces delegated to third-party libraries (uproot, matplotlib, the
  filesystem) are modelled at their interface: a ROOT file is a key/content
  map, `fig.savefig`/`os.makedirs` act on an explicit set of filesystem
  entries, and a plot call records the path written and the cell values
  handed to the renderer.
-/

namespace HLTRecHitPlotter

/-- Python exceptions that the modelled code can raise. -/
inductive PyError where
  | assertionError (msg : String) : PyError
  | keyError (msg : String) : PyError
  | valueError (msg : String) : PyError
  | nameError (msg : String) : PyError
  deriving Repr, DecidableEq

/-- A 2D array as a list of rows. -/
abbrev Mat (α : Type) := List (List α)

/-- Substring test on lists of characters: does `sub` occur starting at the
head of `s`? -/
def listStarts : List Char → List Char → Bool
  | [], _ => true
  | _ :: _, [] => false
  | a :: as, b :: bs => a == b && listStarts as bs

/-- Substring test on lists of characters: does `sub` occur anywhere in `s`?
Models Python's `sub in s`. -/
def listHasSub (sub : List Char) : List Char → Bool
  | [] => listStarts sub []
  | c :: rest => listStarts sub (c :: rest) || listHasSub sub rest

/-- Models Python's substring containment `sub in s` for strings. -/
def strContains (sub s : String) : Bool :=
  listHasSub sub.data s.data

/-- Bin edges to bin centers, `0.5 * (edges[1:] + edges[:-1])`
(`helpers/cut.py`, `TwoDimensionalCut._get_centers`). -/
def getCenters (edges : List ℚ) : List ℚ :=
  List.zipWith (fun a b => (a + b) / 2) edges edges.tail

/-- Elementwise combination of two matrices (numpy broadcasting of a binary
operation over two arrays of the same shape). -/
def matMap2 {α β γ : Type} (f : α → β → γ) (m1 : Mat α) (m2 : Mat β) : Mat γ :=
  List.zipWith (List.zipWith f) m1 m2

/-- `np.meshgrid(xs, ys)` first output: `x[i][j] = xs[j]`, shape
`(ys.length, xs.length)`. -/
def meshgridX (xs ys : List ℚ) : Mat ℚ :=
  ys.map (fun _ => xs)

/-- `np.meshgrid(xs, ys)` second output: `y[i][j] = ys[i]`, shape
`(ys.length, xs.length)`. -/
def meshgridY (xs ys : List ℚ) : Mat ℚ :=
  ys.map (fun y => xs.map (fun _ => y))

/-- A numpy masked array: data plus a mask, `true` meaning the cell is
hidden. -/
structure MaskedArray where
  data : Mat ℚ
  hidden : Mat Bool
  deriving Repr, DecidableEq

/-- `helpers/cut.py` `TwoDimensionalCut`. The user-supplied
`mask_expression` string (evaluated by `eval` with the meshgrid matrices
bound to `x` and `y`) is modelled as a pointwise boolean function of the
`x` and `y` cell-center values; numpy broadcasts the comparison
elementwise, which is exactly the pointwise application below. -/
structure TwoDimensionalCut where
  xedges : List ℚ
  yedges : List ℚ
  values : Mat ℚ
  mask_expression : ℚ → ℚ → Bool

/-- `self.xcenters`, computed in `__post_init__` via `_get_centers`. -/
def TwoDimensionalCut.xcenters (c : TwoDimensionalCut) : List ℚ :=
  getCenters c.xedges

/-- `self.ycenters`, computed in `__post_init__` via `_get_centers`. -/
def TwoDimensionalCut.ycenters (c : TwoDimensionalCut) : List ℚ :=
  getCenters c.yedges

/-- `TwoDimensionalCut.return_masked_array`:
`x, y = np.meshgrid(self.xcenters, self.ycenters)`;
`mask = eval(self.mask_expression)`;
`return np.ma.MaskedArray(self.values, ~mask)`. -/
def TwoDimensionalCut.return_masked_array (c : TwoDimensionalCut) : MaskedArray :=
  let x := meshgridX c.xcenters c.ycenters
  let y := meshgridY c.xcenters c.ycenters
  let mask := matMap2 (fun a b => c.mask_expression a b) x y
  { data := c.values, hidden := mask.map (List.map not) }

/-- The mask expression `x<t` produced by `cut_search.py` as the f-string
`f'x<{thresh}'`. -/
def exprXLt (t : ℚ) : ℚ → ℚ → Bool :=
  fun x _ => decide (x < t)

/-- Sum of all entries of a matrix, `np.sum` on a 2D array. -/
def matTotal (m : Mat ℚ) : ℚ :=
  (m.map List.sum).sum

/-- `np.sum` on a masked array: hidden cells are skipped. -/
def maskedSum (ma : MaskedArray) : ℚ :=
  ((matMap2 (fun v b => if b then 0 else v) ma.data ma.hidden).map List.sum).sum

/-- Fueled column extraction: `transposeGo k m` returns the first `k` columns
of `m` as rows. -/
def transposeGo : ℕ → Mat ℚ → Mat ℚ
  | 0, _ => []
  | k + 1, m => m.map (fun r => r.headD 0) :: transposeGo k (m.map (fun r => r.drop 1))

/-- numpy `.T` on a (rectangular) matrix: the number of columns is read off
the first row. -/
def transposeM (m : Mat ℚ) : Mat ℚ :=
  transposeGo (m.headD []).length m

/-- The part of an uproot 2D histogram used by `cut_search.py`: `h.edges`
gives the x and y bin edge arrays and `h.values` the bin-content matrix,
indexed as `values[xbin][ybin]`. -/
structure UHist2 where
  xedges : List ℚ
  yedges : List ℚ
  values : Mat ℚ

/-- The histogram dictionary built by `cut_search.get_histos`: one histogram
tagged `'Physics Enriched'` and one tagged `'Noise Enriched'`. -/
structure Histos where
  physics : UHist2
  noise : UHist2

/-- Loop body of `cut_search.compute_s_over_b`: `xedges, yedges = h.edges`,
`values = h.values.T`, and the `TwoDimensionalCut` built from them. -/
def cut_of (h : UHist2) (expr : ℚ → ℚ → Bool) : TwoDimensionalCut :=
  ⟨h.xedges, h.yedges, transposeM h.values, expr⟩

/-- `cut_search.compute_s_over_b`: for each histogram, the number of events
is the masked-array sum and the efficiency is that sum over the total;
returns `(s_over_b, physics efficiency, noise efficiency)` where
`s_over_b = # Physics Enriched / # Noise Enriched`. -/
def compute_s_over_b (histos : Histos) (expr : ℚ → ℚ → Bool) : ℚ × ℚ × ℚ :=
  let nP := maskedSum (cut_of histos.physics expr).return_masked_array
  let nN := maskedSum (cut_of histos.noise expr).return_masked_array
  let effP := nP / matTotal (transposeM histos.physics.values)
  let effN := nN / matTotal (transposeM histos.noise.values)
  (nP / nN, effP, effN)

/-- The sum of a histogram's values over the cells left unmasked by the mask
expression: cell `(xbin j, ybin i)` counts exactly when the expression holds
at the bin centers `(xcenters[j], ycenters[i])`. -/
def histUnmaskedSum (h : UHist2) (expr : ℚ → ℚ → Bool) : ℚ :=
  ∑ j ∈ Finset.range (getCenters h.xedges).length,
    ∑ i ∈ Finset.range (getCenters h.yedges).length,
      (if expr ((getCenters h.xedges).getD j 0) ((getCenters h.yedges).getD i 0)
        then (h.values.getD j []).getD i 0 else 0)

/-- The sum of all of a histogram's values. -/
def histTotalSum (h : UHist2) : ℚ :=
  matTotal h.values

/-- `np.linspace(a, b, n)` with the default inclusive endpoint, over ℚ:
`n` points `a + i * (b - a) / (n - 1)`. -/
def linspace (a b : ℚ) (n : ℕ) : List ℚ :=
  (List.range n).map (fun i : ℕ => a + (b - a) * (i : ℚ) / ((n : ℚ) - 1))

/-- The content of the scatter plot drawn by `cut_search.plot_s_over_b`:
the threshold list and the three series plotted against it. -/
structure SOverBPlot where
  thresholds : List ℚ
  s_over_b : List ℚ
  noise_rejection : List ℚ
  physics_rejection : List ℚ

/-- The dataset names accepted by `plot.py`'s command-line interface
(`parse_cli`, `choices=['MET','EGamma','VBFHinv']`). -/
def accepted_datasets : List String :=
  ["MET", "EGamma", "VBFHinv"]

/-- `util.get_pretty_plot_tag`: look the dataset up in the hard-coded tag
mapping and turn the `KeyError` of a failed lookup into a `ValueError`. -/
def get_pretty_plot_tag (dataset : String) : Except PyError String :=
  if dataset = "MET" then .ok "MET 2018A, Run: 315264"
  else if dataset = "EGamma" then .ok "EGamma 2018D, Run: 324500-324999"
  else .error (.valueError ("Cannot identify tag for dataset: " ++ dataset))

/-- The interface of an opened uproot file as used by the two `RootFile`
classes: the cycle-stripped top-level directory keys in key order, the
cycle-stripped keys inside each directory, and the object stored at
`f[dirkey][histname]` (histogram objects abstracted to identifiers). -/
structure RootFileData where
  keys : List String
  dirContents : String → List String
  obj : String → String → ℕ

/-- `helpers/rootfile.py` `RootFile` after `__post_init__` /
`_index_into_file`: the opened file handle and the stored key list. -/
structure RootFile where
  f : RootFileData
  keys : List String

/-- `helpers/rootfile.py` `RootFile.__post_init__`: open the file and store
the top-level key list; no failure path exists. -/
def RootFile.construct (f : RootFileData) : Except PyError RootFile :=
  .ok { f := f, keys := f.keys }

/-- The search loop of `helpers/rootfile.py` `RootFile.get_histogram`. -/
def findHistogram (f : RootFileData) (histname : String) :
    List String → Except PyError ℕ
  | [] => .error (.keyError ("Histogram not found: " ++ histname))
  | key :: rest =>
    if histname ∈ f.dirContents key then .ok (f.obj key histname)
    else findHistogram f histname rest

/-- `helpers/rootfile.py` `RootFile.get_histogram`: scan the stored key list
in order and return the histogram from the first directory containing the
name. The method assigns no attribute, so the second component is the
receiver's state after the call, which is the receiver itself. -/
def RootFile.get_histogram (rf : RootFile) (histname : String) :
    Except PyError ℕ × RootFile :=
  (findHistogram rf.f histname rf.keys, rf)

/-- `util.py` `RootFile` after `__post_init__` / `_get_directory`: only the
single top-level directory is retained. -/
structure UtilRootFile where
  f : RootFileData
  directory : String

/-- `util.py` `RootFile.__post_init__` / `_get_directory`: read the
top-level keys, `assert len(keys) == 1`, and store the one directory. -/
def UtilRootFile.construct (f : RootFileData) : Except PyError UtilRootFile :=
  if f.keys.length = 1 then
    .ok { f := f, directory := f.keys.getD 0 "" }
  else
    .error (.assertionError "Input ROOT file has more than one directory!")

/-- `util.py` `RootFile.get_histogram`: `return self.directory[histname]`;
the third-party directory lookup returns the stored object, or raises
`KeyError` when the name is absent from the directory. -/
def UtilRootFile.get_histogram (rf : UtilRootFile) (histname : String) :
    Except PyError ℕ :=
  if histname ∈ rf.f.dirContents rf.directory then
    .ok (rf.f.obj rf.directory histname)
  else
    .error (.keyError histname)

/-- A sample two-directory file where only the second directory holds the
histogram `h`. -/
def sampleFile : RootFileData where
  keys := ["d1", "d2"]
  dirContents := fun k => if k = "d2" then ["h"] else []
  obj := fun _ _ => 5

/-- A sample single-directory file holding the histogram `h`. -/
def sampleFile1 : RootFileData where
  keys := ["dir"]
  dirContents := fun _ => ["h"]
  obj := fun _ _ => 7

/-- One record of `cut_search.get_histos`'s effect per input file: the dict
tag under which the histogram is stored, the analyzer directory read, and
the file name opened. -/
structure HistoRead where
  tag : String
  analyzer : String
  fname : String
  deriving Repr, DecidableEq

/-- The loop of `cut_search.get_histos` over `args.files`, with the Python
locals `tag`/`analyzer` carried as `state`: a file matching neither
substring leaves them at their previous value, and reading them before any
assignment raises `NameError`. The `uproot.open(fname)[analyzer]` read and
the `histos[tag]` store are recorded as a `HistoRead`. -/
def get_histos_go (state : Option (String × String)) :
    List String → Except PyError (List HistoRead)
  | [] => .ok []
  | fname :: rest =>
    let st := if strContains "MET" fname then
        some ("Noise Enriched", "noisyRechitAnalyzer")
      else if strContains "EGamma" fname then
        some ("Physics Enriched", "rechitAnalyzer")
      else state
    match st with
    | none => .error (.nameError "name analyzer is not defined")
    | some ta =>
      match get_histos_go (some ta) rest with
      | .error e => .error e
      | .ok rs => .ok ({ tag := ta.1, analyzer := ta.2, fname := fname } :: rs)

/-- `cut_search.get_histos`, entered with the locals `tag`/`analyzer`
unbound. -/
def get_histos (files : List String) : Except PyError (List HistoRead) :=
  get_histos_go none files

/-- Whether a file name matches either branch of the `get_histos` if-chain. -/
def fileMatches (fname : String) : Bool :=
  strContains "MET" fname || strContains "EGamma" fname

/-- The tag/analyzer pair the `get_histos` loop body computes for a file,
given the previous value of the locals. -/
def tagFor (ta : String × String) (fname : String) : String × String :=
  if strContains "MET" fname then ("Noise Enriched", "noisyRechitAnalyzer")
  else if strContains "EGamma" fname then ("Physics Enriched", "rechitAnalyzer")
  else ta

/-- The reads `get_histos` performs once the locals are bound: each file is
read with the tag/analyzer computed from it, or with the previous pair when
it matches neither substring. -/
def readsFrom (ta : String × String) : List String → List HistoRead
  | [] => []
  | fname :: rest =>
    { tag := (tagFor ta fname).1, analyzer := (tagFor ta fname).2,
      fname := fname } :: readsFrom (tagFor ta fname) rest

/-- A 1D uproot histogram: bin edges and bin contents. -/
structure UHist1 where
  edges : List ℚ
  values : List ℚ

/-- The histogram object attached with `set_histogram_object` (an uproot
TH1 or TH2). Each access to the uproot `values` property rebuilds a fresh
numpy array from the file's stored contents, so the rendering code cannot
mutate the attached object through it; the embedding treats the object as
an immutable value. -/
inductive HObj where
  | one : UHist1 → HObj
  | two : UHist2 → HObj

/-- `helpers/histogram.py` `Histogram` dataclass fields (including the
inherited `HistogramBase` fields). -/
structure Histogram where
  name : String
  xlabel : String
  ylabel : String
  fontsize : ℤ
  plottag : Option String
  ndim : ℤ
  logscale : Bool
  vmin : Option ℚ
  vmax : Option ℚ

/-- `Histogram.__post_init__`: `assert self.ndim in (1, 2)`. -/
def Histogram.construct (name xlabel ylabel : String) (fontsize : ℤ)
    (plottag : Option String) (ndim : ℤ) (logscale : Bool)
    (vmin vmax : Option ℚ) : Except PyError Histogram :=
  if ndim = 1 ∨ ndim = 2 then
    .ok { name := name, xlabel := xlabel, ylabel := ylabel,
          fontsize := fontsize, plottag := plottag, ndim := ndim,
          logscale := logscale, vmin := vmin, vmax := vmax }
  else
    .error (.assertionError "Number of dimensions not accepted")

/-- The persistent state touched by plotting: the existing filesystem
entries (files and directories), as a list of paths. -/
abbrev FileSystem := List String

/-- `os.makedirs`. -/
def makedirs (fs : FileSystem) (p : String) : FileSystem :=
  p :: fs

/-- `fig.savefig(path)`: create the file at `path` (or overwrite it). -/
def savefig (fs : FileSystem) (p : String) : FileSystem :=
  if p ∈ fs then fs else p :: fs

/-- `os.path.dirname`. -/
def dirname (path : String) : String :=
  String.intercalate "/" (path.splitOn "/").dropLast

/-- `HistogramBase._save_fig`: `outdir = os.path.dirname(path)`; create the
output directory when it does not exist; save the figure at `path`. -/
def save_fig (fs : FileSystem) (path : String) : FileSystem :=
  let outdir := dirname path
  let fs1 := if outdir ∈ fs then fs else makedirs fs outdir
  savefig fs1 path

/-- Which renderer a `plot()` call dispatched to. -/
inductive Renderer where
  | oneD : Renderer
  | twoD : Renderer
  deriving Repr, DecidableEq

/-- The observable effect of a `Histogram.plot` call: the filesystem
afterwards, the path written, the renderer used, the cell values handed to
`pcolormesh` when the 2D renderer ran, and the attached histogram object
after the call. -/
structure PlotOutput where
  fs : FileSystem
  outpath : String
  kind : Renderer
  rendered2d : Option (Mat ℚ)
  h_obj_after : HObj

/-- numpy in-place elementwise division `vals /= s`. -/
def matDivAll (m : Mat ℚ) (s : ℚ) : Mat ℚ :=
  m.map (List.map (fun v => v / s))

/-- The `self.h_obj.values.T` read in `_plot2d`. numpy's transpose of a 1D
array is the array itself, rendered here as a single row. -/
def HObj.valuesT : HObj → Mat ℚ
  | .one h => [h.values]
  | .two h => transposeM h.values

/-- `Histogram._plot1d`: draw the 1D histogram and `_save_fig` it at
`os.path.join(outdir, f"{self.name}.pdf")`. -/
def Histogram._plot1d (h : Histogram) (h_obj : HObj) (outdir : String)
    (fs : FileSystem) : PlotOutput :=
  let path := outdir ++ "/" ++ h.name ++ ".pdf"
  { fs := save_fig fs path, outpath := path, kind := .oneD,
    rendered2d := none, h_obj_after := h_obj }

/-- `Histogram._plot2d`: read `vals = self.h_obj.values.T`, perform
`vals /= np.sum(vals)` when `normed`, hand `vals` to `pcolormesh`, and
`_save_fig` at `os.path.join(outdir, f"{self.name}.pdf")`. The in-place
division acts on the local array only (see `HObj`). -/
def Histogram._plot2d (h : Histogram) (h_obj : HObj) (outdir : String)
    (normed : Bool) (fs : FileSystem) : PlotOutput :=
  let vals0 := h_obj.valuesT
  let vals := if normed then matDivAll vals0 (matTotal vals0) else vals0
  let path := outdir ++ "/" ++ h.name ++ ".pdf"
  { fs := save_fig fs path, outpath := path, kind := .twoD,
    rendered2d := some vals, h_obj_after := h_obj }

/-- `Histogram.plot`: dispatch to `_plot1d` when `ndim == 1`, otherwise to
`_plot2d` with `normed='StripSize' in self.name`. -/
def Histogram.plot (h : Histogram) (h_obj : HObj) (outdir : String)
    (fs : FileSystem) : PlotOutput :=
  if h.ndim = 1 then h._plot1d h_obj outdir fs
  else h._plot2d h_obj outdir (strContains "StripSize" h.name) fs

/-- `helpers/histogram.py` `OverlayHistogram` dataclass fields. -/
structure OverlayHistogram where
  name : String
  xlabel : String
  ylabel : String
  fontsize : ℤ
  plottag : Option String
  root_histo_names : List String
  thresh : Option (String × ℚ)

/-- `OverlayHistogram.compute_ratio`: the percentage of entries whose bin
center lies below the threshold. -/
def OverlayHistogram.compute_ratio (histo : UHist1) (thresh : ℚ) : ℚ :=
  (List.zipWith (fun v c => if c < thresh then v else 0) histo.values
    (getCenters histo.edges)).sum / histo.values.sum * 100

/-- The observable effect of an `OverlayHistogram.plot` call. -/
structure OverlayPlotOutput where
  fs : FileSystem
  outpath : String
  histo_map_after : List (String × UHist1)
  ratios : List ℚ

/-- `OverlayHistogram.plot`: overlay each histogram of the stored map,
collect the positive threshold ratios for the optional annotation, and
`_save_fig` one figure at `os.path.join(outdir, f"{self.name}.pdf")`. -/
def OverlayHistogram.plot (o : OverlayHistogram)
    (histo_map : List (String × UHist1)) (outdir : String)
    (fs : FileSystem) : OverlayPlotOutput :=
  let ratios := match o.thresh with
    | none => []
    | some t =>
      (histo_map.map (fun p => OverlayHistogram.compute_ratio p.2 t.2)).filter
        (fun r => decide (0 < r))
  let path := outdir ++ "/" ++ o.name ++ ".pdf"
  { fs := save_fig fs path, outpath := path, histo_map_after := histo_map,
    ratios := ratios }

/-- A 2D histogram wrapper whose name contains `StripSize`. -/
def stripHist : Histogram :=
  ⟨"xStripSize", "x", "y", 14, none, 2, false, none, none⟩

/-- `cut_search.plot_s_over_b`: `thresholds = np.linspace(0.1, 0.3, 40)`;
for each threshold the expression `f'x<{thresh}'` is evaluated with
`compute_s_over_b` and the loop appends the S/B value, `1 - noise
efficiency` and `1 - physics efficiency`; the three series are then drawn
against `thresholds`. -/
def plot_s_over_b (histos : Histos) : SOverBPlot :=
  let thresholds := linspace (1 / 10) (3 / 10) 40
  { thresholds := thresholds
    s_over_b :=
      thresholds.map (fun t => (compute_s_over_b histos (exprXLt t)).1)
    noise_rejection :=
      thresholds.map (fun t => 1 - (compute_s_over_b histos (exprXLt t)).2.2)
    physics_rejection :=
      thresholds.map (fun t => 1 - (compute_s_over_b histos (exprXLt t)).2.1) }

end HLTRecHitPlotter

namespace HLTRecHitPlotter

/-! Basic lemmas about list indexing used throughout. -/

lemma getD_map {α β : Type} (f : α → β) (l : List α) (i : ℕ) (d : β) (d' : α)
    (hi : i < l.length) :
    (l.map f).getD i d = f (l.getD i d') := by
  induction l generalizing i with
  | nil => simp at hi
  | cons a t ih =>
    cases i with
    | zero => simp
    | succ n =>
      simp only [List.map_cons, List.getD_cons_succ]
      exact ih n (by simpa using hi)

lemma getD_zipWith {α β γ : Type} (f : α → β → γ) (l1 : List α) (l2 : List β)
    (i : ℕ) (d : γ) (d1 : α) (d2 : β)
    (h1 : i < l1.length) (h2 : i < l2.length) :
    (List.zipWith f l1 l2).getD i d = f (l1.getD i d1) (l2.getD i d2) := by
  induction l1 generalizing l2 i with
  | nil => simp at h1
  | cons a t ih =>
    cases l2 with
    | nil => simp at h2
    | cons b t2 =>
      cases i with
      | zero => simp
      | succ n =>
        simp only [List.zipWith_cons_cons, List.getD_cons_succ]
        exact ih t2 n (by simpa using h1) (by simpa using h2)

lemma getCenters_length (es : List ℚ) :
    (getCenters es).length = es.length - 1 := by
  cases es with
  | nil => simp [getCenters]
  | cons a t => simp [getCenters]

lemma getCenters_getD (es : List ℚ) (k : ℕ) (hk : k + 1 < es.length) :
    (getCenters es).getD k 0 = (es.getD k 0 + es.getD (k + 1) 0) / 2 := by
  induction es generalizing k with
  | nil => simp at hk
  | cons a t ih =>
    cases t with
    | nil => simp at hk
    | cons b t2 =>
      cases k with
      | zero => simp [getCenters]
      | succ n =>
        have : getCenters (a :: b :: t2) =
            (a + b) / 2 :: getCenters (b :: t2) := by
          simp [getCenters]
        rw [this, List.getD_cons_succ, List.getD_cons_succ, List.getD_cons_succ]
        exact ih n (by simpa using hk)

/-- Entry of the hidden-mask of `return_masked_array`: cell `(i, j)` is
hidden exactly when the mask expression is false at
`(xcenters[j], ycenters[i])`. -/
lemma return_masked_array_hidden_getD (c : TwoDimensionalCut) (i j : ℕ)
    (hi : i < c.ycenters.length) (hj : j < c.xcenters.length) :
    ((c.return_masked_array.hidden.getD i []).getD j true) =
      not (c.mask_expression (c.xcenters.getD j 0) (c.ycenters.getD i 0)) := by
  have hxlen : (meshgridX c.xcenters c.ycenters).length = c.ycenters.length := by
    simp [meshgridX]
  have hylen : (meshgridY c.xcenters c.ycenters).length = c.ycenters.length := by
    simp [meshgridY]
  have hmlen : (matMap2 (fun a b => c.mask_expression a b)
      (meshgridX c.xcenters c.ycenters)
      (meshgridY c.xcenters c.ycenters)).length = c.ycenters.length := by
    simp [matMap2, hxlen, hylen]
  have hrowX : (meshgridX c.xcenters c.ycenters).getD i [] = c.xcenters := by
    unfold meshgridX
    rw [getD_map (fun _ => c.xcenters) c.ycenters i [] 0 hi]
  have hrowY : (meshgridY c.xcenters c.ycenters).getD i [] =
      c.xcenters.map (fun _ => c.ycenters.getD i 0) := by
    unfold meshgridY
    rw [getD_map _ c.ycenters i [] 0 hi]
  have hmaskrow : (matMap2 (fun a b => c.mask_expression a b)
      (meshgridX c.xcenters c.ycenters)
      (meshgridY c.xcenters c.ycenters)).getD i [] =
      List.zipWith (fun a b => c.mask_expression a b) c.xcenters
        (c.xcenters.map (fun _ => c.ycenters.getD i 0)) := by
    unfold matMap2
    rw [getD_zipWith _ _ _ i [] [] [] (by rw [hxlen]; exact hi)
      (by rw [hylen]; exact hi), hrowX, hrowY]
  have hval : c.return_masked_array.hidden =
      (matMap2 (fun a b => c.mask_expression a b)
        (meshgridX c.xcenters c.ycenters)
        (meshgridY c.xcenters c.ycenters)).map (List.map not) := rfl
  rw [hval]
  rw [getD_map (List.map not) _ i [] [] (by rw [hmlen]; exact hi), hmaskrow]
  have hjz : j < (List.zipWith (fun a b => c.mask_expression a b) c.xcenters
      (c.xcenters.map (fun _ => c.ycenters.getD i 0))).length := by
    simp [hj]
  rw [getD_map not _ j true true hjz,
    getD_zipWith _ _ _ j true 0 0 hj (by simpa using hj),
    getD_map _ c.xcenters j 0 0 hj]

/-- The hidden-mask of `return_masked_array` has one row per y bin center. -/
lemma return_masked_array_hidden_length (c : TwoDimensionalCut) :
    c.return_masked_array.hidden.length = c.ycenters.length := by
  simp [TwoDimensionalCut.return_masked_array, matMap2, meshgridX, meshgridY]

/-- Each row of the hidden-mask of `return_masked_array` has one entry per
x bin center. -/
lemma return_masked_array_hidden_row_length (c : TwoDimensionalCut) (i : ℕ)
    (hi : i < c.ycenters.length) :
    (c.return_masked_array.hidden.getD i []).length = c.xcenters.length := by
  have hxlen : (meshgridX c.xcenters c.ycenters).length = c.ycenters.length := by
    simp [meshgridX]
  have hylen : (meshgridY c.xcenters c.ycenters).length = c.ycenters.length := by
    simp [meshgridY]
  have hmlen : (matMap2 (fun a b => c.mask_expression a b)
      (meshgridX c.xcenters c.ycenters)
      (meshgridY c.xcenters c.ycenters)).length = c.ycenters.length := by
    simp [matMap2, hxlen, hylen]
  have hrowX : (meshgridX c.xcenters c.ycenters).getD i [] = c.xcenters := by
    unfold meshgridX
    rw [getD_map (fun _ => c.xcenters) c.ycenters i [] 0 hi]
  have hrowY : (meshgridY c.xcenters c.ycenters).getD i [] =
      c.xcenters.map (fun _ => c.ycenters.getD i 0) := by
    unfold meshgridY
    rw [getD_map _ c.ycenters i [] 0 hi]
  have hmaskrow : (matMap2 (fun a b => c.mask_expression a b)
      (meshgridX c.xcenters c.ycenters)
      (meshgridY c.xcenters c.ycenters)).getD i [] =
      List.zipWith (fun a b => c.mask_expression a b) c.xcenters
        (c.xcenters.map (fun _ => c.ycenters.getD i 0)) := by
    unfold matMap2
    rw [getD_zipWith _ _ _ i [] [] [] (by rw [hxlen]; exact hi)
      (by rw [hylen]; exact hi), hrowX, hrowY]
  have hval : c.return_masked_array.hidden =
      (matMap2 (fun a b => c.mask_expression a b)
        (meshgridX c.xcenters c.ycenters)
        (meshgridY c.xcenters c.ycenters)).map (List.map not) := rfl
  rw [hval, getD_map (List.map not) _ i [] [] (by rw [hmlen]; exact hi),
    hmaskrow]
  simp

/-- Claim C1: for a `TwoDimensionalCut` built from an x-edge array of length
`m + 1`, a y-edge array of length `n + 1`, an `n`-by-`m` value grid and the
mask expression `x<t`, `return_masked_array` returns a masked array over the
value grid in which cell `(i, j)` is unmasked exactly when the `j`-th x bin
center is strictly below `t`, and the bin centers are the midpoints of
consecutive edges. -/
theorem claim_c1 (xedges yedges : List ℚ) (values : Mat ℚ) (t : ℚ)
    (m n i j : ℕ)
    (hx : xedges.length = m + 1) (hy : yedges.length = n + 1)
    (hv : values.length = n) (hrow : ∀ r ∈ values, r.length = m)
    (hi : i < n) (hj : j < m) :
    (TwoDimensionalCut.return_masked_array
      ⟨xedges, yedges, values, exprXLt t⟩).data = values ∧
    (((TwoDimensionalCut.return_masked_array
        ⟨xedges, yedges, values, exprXLt t⟩).hidden.getD i []).getD j true = false
      ↔ (getCenters xedges).getD j 0 < t) ∧
    (getCenters xedges).getD j 0 = (xedges.getD j 0 + xedges.getD (j + 1) 0) / 2 ∧
    (getCenters yedges).getD i 0 = (yedges.getD i 0 + yedges.getD (i + 1) 0) / 2 := by
  have hi' : i < (getCenters yedges).length := by
    rw [getCenters_length, hy]; omega
  have hj' : j < (getCenters xedges).length := by
    rw [getCenters_length, hx]; omega
  refine ⟨rfl, ?_, ?_, ?_⟩
  · have := return_masked_array_hidden_getD
      ⟨xedges, yedges, values, exprXLt t⟩ i j hi' hj'
    rw [this]
    unfold exprXLt
    by_cases hlt : (getCenters xedges).getD j 0 < t
    · simp [TwoDimensionalCut.xcenters, hlt]
    · simp [TwoDimensionalCut.xcenters, hlt]
  · exact getCenters_getD xedges j (by omega)
  · exact getCenters_getD yedges i (by omega)

/-- Concrete instantiation of `claim_c1` with edges `[0, 1, 2]` × `[0, 2]`,
values `[[5, 7]]` and threshold `1`. -/
theorem claim_c1_witness :
    (TwoDimensionalCut.return_masked_array
      ⟨[0, 1, 2], [0, 2], [[5, 7]], exprXLt 1⟩).data = [[5, 7]] ∧
    (((TwoDimensionalCut.return_masked_array
        ⟨[0, 1, 2], [0, 2], [[5, 7]], exprXLt 1⟩).hidden.getD 0 []).getD 0 true = false
      ↔ (getCenters [0, 1, 2]).getD 0 0 < 1) ∧
    (getCenters [0, 1, 2]).getD 0 0 =
      (([0, 1, 2] : List ℚ).getD 0 0 + ([0, 1, 2] : List ℚ).getD 1 0) / 2 ∧
    (getCenters [0, 2]).getD 0 0 =
      (([0, 2] : List ℚ).getD 0 0 + ([0, 2] : List ℚ).getD 1 0) / 2 :=
  claim_c1 [0, 1, 2] [0, 2] [[5, 7]] 1 2 1 0 0 rfl rfl rfl
    (by intro r hr; simp at hr; simp [hr]) (by decide) (by decide)

/-! Lemmas relating list sums, transposition and the masked-array sum to
indexed double sums. -/

lemma sum_eq_range_getD (l : List ℚ) :
    l.sum = ∑ k ∈ Finset.range l.length, l.getD k 0 := by
  induction l with
  | nil => simp
  | cons a t ih =>
    rw [List.sum_cons, List.length_cons, Finset.sum_range_succ']
    simp only [List.getD_cons_succ, List.getD_cons_zero]
    rw [← ih]
    ring

lemma headD_eq_getD (l : List ℚ) (d : ℚ) : l.headD d = l.getD 0 d := by
  cases l <;> simp

lemma drop_one_getD (l : List ℚ) (j : ℕ) (d : ℚ) :
    (l.drop 1).getD j d = l.getD (j + 1) d := by
  cases l <;> simp

lemma getD_mem {α : Type} (l : List α) (i : ℕ) (d : α) (hi : i < l.length) :
    l.getD i d ∈ l := by
  induction l generalizing i with
  | nil => simp at hi
  | cons a t ih =>
    cases i with
    | zero => simp
    | succ n =>
      simp only [List.getD_cons_succ]
      exact List.mem_cons_of_mem a (ih n (by simpa using hi))

lemma transposeGo_length (k : ℕ) (m : Mat ℚ) : (transposeGo k m).length = k := by
  induction k generalizing m with
  | zero => rfl
  | succ n ih => simp [transposeGo, ih]

lemma transposeGo_getD (k : ℕ) (m : Mat ℚ) (j : ℕ) (hj : j < k) :
    (transposeGo k m).getD j [] = m.map (fun r => r.getD j 0) := by
  induction k generalizing m j with
  | zero => omega
  | succ n ih =>
    cases j with
    | zero =>
      simp only [transposeGo, List.getD_cons_zero]
      have : (fun r : List ℚ => r.headD 0) = fun r : List ℚ => r.getD 0 0 :=
        funext (fun r => headD_eq_getD r 0)
      rw [this]
    | succ j2 =>
      simp only [transposeGo, List.getD_cons_succ]
      rw [ih (m.map (fun r => r.drop 1)) j2 (by omega), List.map_map]
      have : ((fun r : List ℚ => r.getD j2 0) ∘ fun r : List ℚ => r.drop 1) =
          fun r : List ℚ => r.getD (j2 + 1) 0 :=
        funext (fun r => drop_one_getD r j2 0)
      rw [this]

lemma transposeGo_rows (k : ℕ) (m : Mat ℚ) :
    ∀ r ∈ transposeGo k m, r.length = m.length := by
  induction k generalizing m with
  | zero => simp [transposeGo]
  | succ n ih =>
    intro r hr
    simp only [transposeGo, List.mem_cons] at hr
    rcases hr with h | h
    · simp [h]
    · exact (ih (m.map (fun r => r.drop 1)) r h).trans (by simp)

lemma transposeM_entry (m : Mat ℚ) (c : ℕ) (hr : ∀ r ∈ m, r.length = c)
    (i j : ℕ) (hi : i < c) (hj : j < m.length) :
    ((transposeM m).getD i []).getD j 0 = (m.getD j []).getD i 0 := by
  cases m with
  | nil => simp at hj
  | cons r0 rest =>
    have hc : transposeM (r0 :: rest) = transposeGo c (r0 :: rest) := by
      unfold transposeM
      rw [show ((r0 :: rest).headD []).length = c from by
        simpa using hr r0 (by simp)]
    rw [hc, transposeGo_getD c _ i hi,
      getD_map (fun r => r.getD i 0) _ j 0 [] hj]

lemma transposeM_length (m : Mat ℚ) (c : ℕ) (hr : ∀ r ∈ m, r.length = c)
    (hne : m ≠ []) : (transposeM m).length = c := by
  cases m with
  | nil => exact absurd rfl hne
  | cons r0 rest =>
    unfold transposeM
    rw [transposeGo_length]
    simpa using hr r0 (by simp)

lemma transposeM_row_length (m : Mat ℚ) (c : ℕ) (hr : ∀ r ∈ m, r.length = c)
    (i : ℕ) (hi : i < c) (hne : m ≠ []) :
    ((transposeM m).getD i []).length = m.length := by
  cases m with
  | nil => exact absurd rfl hne
  | cons r0 rest =>
    have hc : transposeM (r0 :: rest) = transposeGo c (r0 :: rest) := by
      unfold transposeM
      rw [show ((r0 :: rest).headD []).length = c from by
        simpa using hr r0 (by simp)]
    rw [hc, transposeGo_getD c _ i hi, List.length_map]

lemma matTotal_eq_double (m : Mat ℚ) (c : ℕ) (hr : ∀ r ∈ m, r.length = c) :
    matTotal m = ∑ j ∈ Finset.range m.length, ∑ i ∈ Finset.range c,
      (m.getD j []).getD i 0 := by
  unfold matTotal
  rw [sum_eq_range_getD, List.length_map]
  refine Finset.sum_congr rfl ?_
  intro j hj
  simp only [Finset.mem_range] at hj
  rw [getD_map List.sum m j 0 [] hj, sum_eq_range_getD,
    hr (m.getD j []) (getD_mem m j [] hj)]

lemma matTotal_transposeM (m : Mat ℚ) (c : ℕ) (hr : ∀ r ∈ m, r.length = c) :
    matTotal (transposeM m) = matTotal m := by
  cases hm : m with
  | nil => simp [transposeM, transposeGo, matTotal]
  | cons r0 rest =>
    rw [← hm]
    have hne : m ≠ [] := by rw [hm]; simp
    have hrt : ∀ r ∈ transposeM m, r.length = m.length := fun r h =>
      transposeGo_rows _ m r h
    rw [matTotal_eq_double (transposeM m) m.length hrt,
      transposeM_length m c hr hne,
      matTotal_eq_double m c hr, Finset.sum_comm]
    refine Finset.sum_congr rfl ?_
    intro j hj
    refine Finset.sum_congr rfl ?_
    intro i hi
    simp only [Finset.mem_range] at hi hj
    exact transposeM_entry m c hr i j hi hj

lemma maskedSum_formula (ma : MaskedArray) (R C : ℕ)
    (hd : ma.data.length = R) (hh : ma.hidden.length = R)
    (hdr : ∀ i < R, (ma.data.getD i []).length = C)
    (hhr : ∀ i < R, (ma.hidden.getD i []).length = C) :
    maskedSum ma = ∑ i ∈ Finset.range R, ∑ j ∈ Finset.range C,
      (if (ma.hidden.getD i []).getD j true then 0
        else (ma.data.getD i []).getD j 0) := by
  unfold maskedSum
  have hL : (matMap2 (fun v b => if b then 0 else v) ma.data ma.hidden).length
      = R := by
    simp [matMap2, hd, hh]
  rw [sum_eq_range_getD, List.length_map, hL]
  refine Finset.sum_congr rfl ?_
  intro i hi
  simp only [Finset.mem_range] at hi
  rw [getD_map List.sum _ i 0 [] (by rw [hL]; exact hi)]
  have hrow : (matMap2 (fun v b => if b then 0 else v) ma.data ma.hidden).getD
      i [] = List.zipWith (fun v b => if b then 0 else v)
        (ma.data.getD i []) (ma.hidden.getD i []) := by
    unfold matMap2
    exact getD_zipWith _ _ _ i [] [] [] (by rw [hd]; exact hi)
      (by rw [hh]; exact hi)
  rw [hrow, sum_eq_range_getD]
  have hzl : (List.zipWith (fun v b => if b then 0 else v)
      (ma.data.getD i []) (ma.hidden.getD i [])).length = C := by
    rw [List.length_zipWith, hdr i hi, hhr i hi, min_self]
  rw [hzl]
  refine Finset.sum_congr rfl ?_
  intro j hj
  simp only [Finset.mem_range] at hj
  rw [getD_zipWith _ _ _ j 0 0 true (by rw [hdr i hi]; exact hj)
    (by rw [hhr i hi]; exact hj)]

/-- The masked-array sum computed by the `compute_s_over_b` loop body equals
the sum of the histogram's values over the cells whose bin centers satisfy
the mask expression. -/
lemma cut_maskedSum (h : UHist2) (expr : ℚ → ℚ → Bool)
    (hlen : h.values.length = (getCenters h.xedges).length)
    (hrow : ∀ r ∈ h.values, r.length = (getCenters h.yedges).length) :
    maskedSum (cut_of h expr).return_masked_array = histUnmaskedSum h expr := by
  cases hv : h.values with
  | nil =>
    have hnx0 : (getCenters h.xedges).length = 0 := by rw [← hlen, hv]; rfl
    unfold histUnmaskedSum
    rw [hnx0]
    simp [maskedSum, matMap2, cut_of, TwoDimensionalCut.return_masked_array,
      hv, transposeM, transposeGo]
  | cons r0 rest =>
    have hr0 : r0 ∈ h.values := by rw [hv]; simp
    have hhead : (h.values.headD []).length = (getCenters h.yedges).length := by
      rw [hv]
      simpa using hrow r0 hr0
    have hfuel : transposeM h.values =
        transposeGo (getCenters h.yedges).length h.values := by
      unfold transposeM
      rw [hhead]
    have hd : (cut_of h expr).return_masked_array.data.length =
        (getCenters h.yedges).length := by
      show (transposeM h.values).length = _
      rw [hfuel, transposeGo_length]
    have hh : (cut_of h expr).return_masked_array.hidden.length =
        (getCenters h.yedges).length :=
      return_masked_array_hidden_length (cut_of h expr)
    have hdr : ∀ i < (getCenters h.yedges).length,
        ((cut_of h expr).return_masked_array.data.getD i []).length =
          (getCenters h.xedges).length := by
      intro i hi
      show ((transposeM h.values).getD i []).length = _
      rw [hfuel, transposeGo_getD _ _ i hi, List.length_map, hlen]
    have hhr : ∀ i < (getCenters h.yedges).length,
        ((cut_of h expr).return_masked_array.hidden.getD i []).length =
          (getCenters h.xedges).length := by
      intro i hi
      exact return_masked_array_hidden_row_length (cut_of h expr) i hi
    rw [maskedSum_formula _ _ _ hd hh hdr hhr]
    unfold histUnmaskedSum
    rw [Finset.sum_comm]
    refine Finset.sum_congr rfl ?_
    intro j hj
    refine Finset.sum_congr rfl ?_
    intro i hi
    simp only [Finset.mem_range] at hi hj
    rw [return_masked_array_hidden_getD (cut_of h expr) i j hi hj]
    have hdata : ((cut_of h expr).return_masked_array.data.getD i []).getD j 0 =
        (h.values.getD j []).getD i 0 := by
      show ((transposeM h.values).getD i []).getD j 0 = _
      exact transposeM_entry h.values _ hrow i j hi (by rw [hlen]; exact hj)
    rw [hdata]
    have hmaskeq : (cut_of h expr).mask_expression
        ((cut_of h expr).xcenters.getD j 0)
        ((cut_of h expr).ycenters.getD i 0) =
      expr ((getCenters h.xedges).getD j 0)
        ((getCenters h.yedges).getD i 0) := rfl
    rw [hmaskeq]
    cases hexpr : expr ((getCenters h.xedges).getD j 0)
        ((getCenters h.yedges).getD i 0) with
    | false => simp
    | true => simp

/-- Claim C2: for every pair of 2D histograms tagged Physics Enriched and
Noise Enriched and every mask expression, `compute_s_over_b` returns the
signal-to-background ratio equal to the physics histogram's sum over
unmasked cells divided by the noise histogram's sum over unmasked cells,
together with each dataset's efficiency equal to its unmasked sum divided by
the sum of all its values. -/
theorem claim_c2 (histos : Histos) (expr : ℚ → ℚ → Bool)
    (hP1 : histos.physics.values.length =
      (getCenters histos.physics.xedges).length)
    (hP2 : ∀ r ∈ histos.physics.values,
      r.length = (getCenters histos.physics.yedges).length)
    (hN1 : histos.noise.values.length =
      (getCenters histos.noise.xedges).length)
    (hN2 : ∀ r ∈ histos.noise.values,
      r.length = (getCenters histos.noise.yedges).length) :
    compute_s_over_b histos expr =
      (histUnmaskedSum histos.physics expr / histUnmaskedSum histos.noise expr,
       histUnmaskedSum histos.physics expr / histTotalSum histos.physics,
       histUnmaskedSum histos.noise expr / histTotalSum histos.noise) := by
  show (maskedSum (cut_of histos.physics expr).return_masked_array /
      maskedSum (cut_of histos.noise expr).return_masked_array,
    maskedSum (cut_of histos.physics expr).return_masked_array /
      matTotal (transposeM histos.physics.values),
    maskedSum (cut_of histos.noise expr).return_masked_array /
      matTotal (transposeM histos.noise.values)) = _
  rw [cut_maskedSum histos.physics expr hP1 hP2,
    cut_maskedSum histos.noise expr hN1 hN2,
    matTotal_transposeM histos.physics.values _ hP2,
    matTotal_transposeM histos.noise.values _ hN2]
  rfl

/-- Concrete instantiation of `claim_c2` on 1-by-1 histograms with the cut
`x<1`. -/
theorem claim_c2_witness :
    compute_s_over_b ⟨⟨[0, 1], [0, 1], [[3]]⟩, ⟨[0, 1], [0, 1], [[2]]⟩⟩
        (exprXLt 1) =
      (histUnmaskedSum ⟨[0, 1], [0, 1], [[3]]⟩ (exprXLt 1) /
        histUnmaskedSum ⟨[0, 1], [0, 1], [[2]]⟩ (exprXLt 1),
       histUnmaskedSum ⟨[0, 1], [0, 1], [[3]]⟩ (exprXLt 1) /
        histTotalSum ⟨[0, 1], [0, 1], [[3]]⟩,
       histUnmaskedSum ⟨[0, 1], [0, 1], [[2]]⟩ (exprXLt 1) /
        histTotalSum ⟨[0, 1], [0, 1], [[2]]⟩) :=
  claim_c2 ⟨⟨[0, 1], [0, 1], [[3]]⟩, ⟨[0, 1], [0, 1], [[2]]⟩⟩ (exprXLt 1)
    (by simp [getCenters]) (by intro r hr; simp at hr; simp [hr, getCenters])
    (by simp [getCenters]) (by intro r hr; simp at hr; simp [hr, getCenters])

lemma range_getD (k n : ℕ) (hk : k < n) : (List.range n).getD k 0 = k := by
  induction k generalizing n with
  | zero =>
    cases n with
    | zero => omega
    | succ m =>
      rw [List.range_succ_eq_map]
      simp
  | succ k2 ih =>
    cases n with
    | zero => omega
    | succ m =>
      rw [List.range_succ_eq_map, List.getD_cons_succ,
        getD_map Nat.succ _ k2 0 0 (by rw [List.length_range]; omega),
        ih m (by omega)]

lemma map_range_getD {α : Type} (f : ℕ → α) (n k : ℕ) (d : α) (hk : k < n) :
    ((List.range n).map f).getD k d = f k := by
  rw [getD_map f (List.range n) k d 0 (by rw [List.length_range]; exact hk),
    range_getD k n hk]

lemma linspace_getD (a b : ℚ) (n k : ℕ) (hk : k < n) :
    (linspace a b n).getD k 0 = a + (b - a) * k / ((n : ℚ) - 1) := by
  unfold linspace
  rw [map_range_getD _ n k 0 hk]

lemma linspace_length (a b : ℚ) (n : ℕ) : (linspace a b n).length = n := by
  simp [linspace]

/-- Claim C3: the threshold scan in `plot_s_over_b` evaluates exactly 40
equally spaced thresholds from 0.1 to 0.3 inclusive, applying the expression
`x<threshold` at each; the plotted rejection value for each dataset is
1 minus that dataset's efficiency as returned by `compute_s_over_b`, and the
plotted S/B point is `compute_s_over_b`'s signal-to-background value at that
threshold. -/
theorem claim_c3 (histos : Histos) :
    (plot_s_over_b histos).thresholds.length = 40 ∧
    (plot_s_over_b histos).thresholds.getD 0 0 = 1 / 10 ∧
    (plot_s_over_b histos).thresholds.getD 39 0 = 3 / 10 ∧
    (∀ k, k + 1 < 40 →
      (plot_s_over_b histos).thresholds.getD (k + 1) 0 -
        (plot_s_over_b histos).thresholds.getD k 0 =
          (3 / 10 - 1 / 10) / 39) ∧
    (∀ k < 40,
      (plot_s_over_b histos).s_over_b.getD k 0 =
        (compute_s_over_b histos
          (exprXLt ((plot_s_over_b histos).thresholds.getD k 0))).1 ∧
      (plot_s_over_b histos).noise_rejection.getD k 0 =
        1 - (compute_s_over_b histos
          (exprXLt ((plot_s_over_b histos).thresholds.getD k 0))).2.2 ∧
      (plot_s_over_b histos).physics_rejection.getD k 0 =
        1 - (compute_s_over_b histos
          (exprXLt ((plot_s_over_b histos).thresholds.getD k 0))).2.1) := by
  have hthr : (plot_s_over_b histos).thresholds = linspace (1 / 10) (3 / 10) 40 := rfl
  refine ⟨?_, ?_, ?_, ?_, ?_⟩
  · rw [hthr, linspace_length]
  · rw [hthr, linspace_getD _ _ 40 0 (by omega)]
    norm_num
  · rw [hthr, linspace_getD _ _ 40 39 (by omega)]
    norm_num
  · intro k hk
    rw [hthr, linspace_getD _ _ 40 (k + 1) (by omega),
      linspace_getD _ _ 40 k (by omega)]
    push_cast
    ring
  · intro k hk
    have hs : (plot_s_over_b histos).s_over_b =
        (linspace (1 / 10) (3 / 10) 40).map
          (fun t => (compute_s_over_b histos (exprXLt t)).1) := rfl
    have hn : (plot_s_over_b histos).noise_rejection =
        (linspace (1 / 10) (3 / 10) 40).map
          (fun t => 1 - (compute_s_over_b histos (exprXLt t)).2.2) := rfl
    have hp : (plot_s_over_b histos).physics_rejection =
        (linspace (1 / 10) (3 / 10) 40).map
          (fun t => 1 - (compute_s_over_b histos (exprXLt t)).2.1) := rfl
    have hlen : k < (linspace (1 / 10) (3 / 10) 40).length := by
      rw [linspace_length]; exact hk
    refine ⟨?_, ?_, ?_⟩
    · rw [hs, hthr, getD_map _ _ k 0 0 hlen]
    · rw [hn, hthr, getD_map _ _ k 0 0 hlen]
    · rw [hp, hthr, getD_map _ _ k 0 0 hlen]

/-- Concrete instantiation of `claim_c3`: the scan has 40 points, the first
spacing is `(0.3 - 0.1)/39`, and the first plotted S/B point is the
`compute_s_over_b` value at the first threshold. -/
theorem claim_c3_witness :
    (plot_s_over_b ⟨⟨[0, 1], [0, 1], [[3]]⟩,
      ⟨[0, 1], [0, 1], [[2]]⟩⟩).thresholds.length = 40 ∧
    (plot_s_over_b ⟨⟨[0, 1], [0, 1], [[3]]⟩,
        ⟨[0, 1], [0, 1], [[2]]⟩⟩).thresholds.getD 1 0 -
      (plot_s_over_b ⟨⟨[0, 1], [0, 1], [[3]]⟩,
        ⟨[0, 1], [0, 1], [[2]]⟩⟩).thresholds.getD 0 0 =
        (3 / 10 - 1 / 10) / 39 ∧
    (plot_s_over_b ⟨⟨[0, 1], [0, 1], [[3]]⟩,
        ⟨[0, 1], [0, 1], [[2]]⟩⟩).s_over_b.getD 0 0 =
      (compute_s_over_b ⟨⟨[0, 1], [0, 1], [[3]]⟩, ⟨[0, 1], [0, 1], [[2]]⟩⟩
        (exprXLt ((plot_s_over_b ⟨⟨[0, 1], [0, 1], [[3]]⟩,
          ⟨[0, 1], [0, 1], [[2]]⟩⟩).thresholds.getD 0 0))).1 := by
  have h := claim_c3 ⟨⟨[0, 1], [0, 1], [[3]]⟩, ⟨[0, 1], [0, 1], [[2]]⟩⟩
  exact ⟨h.1, h.2.2.2.1 0 (by omega), (h.2.2.2.2 0 (by omega)).1⟩

/-- Claim C5 counterexample: `VBFHinv` is accepted by `plot.py`'s CLI yet
`get_pretty_plot_tag` raises `ValueError` on it, so it is not true that the
function returns a label for every accepted dataset name. -/
theorem claim_c5_counterexample :
    "VBFHinv" ∈ accepted_datasets ∧
    get_pretty_plot_tag "VBFHinv" =
      .error (.valueError "Cannot identify tag for dataset: VBFHinv") := by
  constructor
  · simp [accepted_datasets]
  · rfl

/-- Claim C5 (amended): `get_pretty_plot_tag` returns a dataset-specific
label exactly for `MET` and `EGamma`; every other name, including the
CLI-accepted `VBFHinv`, raises `ValueError`. -/
theorem claim_c5_amended (dataset : String) :
    ((∃ s, get_pretty_plot_tag dataset = .ok s) ↔
      dataset = "MET" ∨ dataset = "EGamma") ∧
    (dataset ≠ "MET" → dataset ≠ "EGamma" →
      get_pretty_plot_tag dataset =
        .error (.valueError ("Cannot identify tag for dataset: " ++ dataset))) := by
  unfold get_pretty_plot_tag
  by_cases h1 : dataset = "MET"
  · subst h1
    simp
  · by_cases h2 : dataset = "EGamma"
    · subst h2
      simp
    · simp [h1, h2]

/-- Concrete instantiation of `claim_c5_amended`: `MET` has a label and
`VBFHinv` raises. -/
theorem claim_c5_witness :
    (∃ s, get_pretty_plot_tag "MET" = .ok s) ∧
    get_pretty_plot_tag "VBFHinv" =
      .error (.valueError ("Cannot identify tag for dataset: " ++ "VBFHinv")) :=
  ⟨(claim_c5_amended "MET").1.mpr (Or.inl rfl),
   (claim_c5_amended "VBFHinv").2 (by decide) (by decide)⟩

/-- `findHistogram` returns the object from the first key whose directory
contains the name, and the `KeyError` otherwise. -/
lemma findHistogram_eq_find (f : RootFileData) (histname : String)
    (keys : List String) :
    findHistogram f histname keys =
      (match keys.find? (fun k => decide (histname ∈ f.dirContents k)) with
       | some k => .ok (f.obj k histname)
       | none => .error (.keyError ("Histogram not found: " ++ histname))) := by
  induction keys with
  | nil => rfl
  | cons k rest ih =>
    by_cases h : histname ∈ f.dirContents k
    · rw [List.find?_cons_of_pos _ (by simpa using h)]
      simp [findHistogram, h]
    · rw [List.find?_cons_of_neg _ (by simpa using h)]
      simp [findHistogram, h, ih]

/-- Claim C6: `helpers.rootfile.RootFile.get_histogram` returns the
histogram from the first top-level directory (in key order) whose contents
include the name, raises `KeyError` if and only if no top-level directory
contains it, and leaves the stored file handle and key list unchanged. -/
theorem claim_c6 (rf : RootFile) (histname : String) :
    ((rf.get_histogram histname).1 =
      (match rf.keys.find? (fun k => decide (histname ∈ rf.f.dirContents k)) with
       | some k => .ok (rf.f.obj k histname)
       | none => .error (.keyError ("Histogram not found: " ++ histname)))) ∧
    (((rf.get_histogram histname).1 =
        .error (.keyError ("Histogram not found: " ++ histname))) ↔
      ∀ k ∈ rf.keys, histname ∉ rf.f.dirContents k) ∧
    (rf.get_histogram histname).2 = rf := by
  refine ⟨findHistogram_eq_find rf.f histname rf.keys, ?_, rfl⟩
  have heq : (rf.get_histogram histname).1 = findHistogram rf.f histname rf.keys := rfl
  rw [heq, findHistogram_eq_find rf.f histname rf.keys]
  cases hfind : rf.keys.find? (fun k => decide (histname ∈ rf.f.dirContents k)) with
  | none =>
    constructor
    · intro _ k hk
      have hnone := List.find?_eq_none.mp hfind k hk
      simpa using hnone
    · intro _
      rfl
  | some k =>
    constructor
    · intro habs
      exact absurd habs (by simp)
    · intro hall
      have hk := List.find?_some hfind
      have hmem := List.mem_of_find?_eq_some hfind
      exact absurd (by simpa using hk) (hall k hmem)

/-- Concrete instantiation of `claim_c6` on `sampleFile`: the search finds
`h` in the second directory and the receiver is unchanged. -/
theorem claim_c6_witness :
    (RootFile.get_histogram ⟨sampleFile, sampleFile.keys⟩ "h").1 = .ok 5 ∧
    (RootFile.get_histogram ⟨sampleFile, sampleFile.keys⟩ "h").2 =
      ⟨sampleFile, sampleFile.keys⟩ := by
  have h := claim_c6 ⟨sampleFile, sampleFile.keys⟩ "h"
  refine ⟨h.1.trans (by rfl), h.2.2⟩

/-- Claim C8: on a file with exactly one top-level directory containing the
requested name, `util.RootFile.get_histogram` and
`helpers.rootfile.RootFile.get_histogram` return the same histogram;
`util.RootFile` fails with an `AssertionError` at construction on any file
with more than one top-level directory, whereas the helpers version
constructs successfully. -/
theorem claim_c8 (f : RootFileData) (histname : String) :
    (f.keys.length = 1 →
      histname ∈ f.dirContents (f.keys.getD 0 "") →
      UtilRootFile.construct f =
        .ok { f := f, directory := f.keys.getD 0 "" } ∧
      RootFile.construct f = .ok { f := f, keys := f.keys } ∧
      UtilRootFile.get_histogram { f := f, directory := f.keys.getD 0 "" }
          histname = .ok (f.obj (f.keys.getD 0 "") histname) ∧
      (RootFile.get_histogram { f := f, keys := f.keys } histname).1 =
        .ok (f.obj (f.keys.getD 0 "") histname)) ∧
    (1 < f.keys.length →
      UtilRootFile.construct f =
        .error (.assertionError "Input ROOT file has more than one directory!") ∧
      RootFile.construct f = .ok { f := f, keys := f.keys }) := by
  constructor
  · intro hlen hmem
    refine ⟨?_, rfl, ?_, ?_⟩
    · unfold UtilRootFile.construct
      rw [if_pos hlen]
    · unfold UtilRootFile.get_histogram
      rw [if_pos hmem]
    · obtain ⟨k0, hk0⟩ := List.length_eq_one.mp hlen
      have hget : f.keys.getD 0 "" = k0 := by rw [hk0]; rfl
      have : (RootFile.get_histogram { f := f, keys := f.keys } histname).1 =
          findHistogram f histname f.keys := rfl
      rw [this, hk0]
      rw [hget] at hmem
      show findHistogram f histname [k0] = .ok (f.obj k0 histname)
      unfold findHistogram
      rw [if_pos hmem]
  · intro hlen
    refine ⟨?_, rfl⟩
    unfold UtilRootFile.construct
    rw [if_neg (by omega)]

/-- Concrete instantiation of `claim_c8` on `sampleFile1`. -/
theorem claim_c8_witness :
    UtilRootFile.construct sampleFile1 =
      .ok { f := sampleFile1, directory := sampleFile1.keys.getD 0 "" } ∧
    (RootFile.get_histogram { f := sampleFile1, keys := sampleFile1.keys }
      "h").1 = .ok (sampleFile1.obj (sampleFile1.keys.getD 0 "") "h") := by
  have h := (claim_c8 sampleFile1 "h").1 rfl (by simp [sampleFile1])
  exact ⟨h.1, h.2.2.2⟩

/-- Membership in the filesystem after `_save_fig`: the entries afterwards
are exactly the old entries, the written file, and the file's directory. -/
lemma save_fig_mem (fs : FileSystem) (path p : String) :
    p ∈ save_fig fs path ↔ p ∈ fs ∨ p = path ∨ p = dirname path := by
  unfold save_fig savefig makedirs
  dsimp only
  split_ifs with hd hp hp2
  · constructor
    · intro h
      exact Or.inl h
    · rintro (h | h | h)
      · exact h
      · rw [h]; exact hp
      · rw [h]; exact hd
  · simp only [List.mem_cons]
    constructor
    · rintro (h | h)
      · exact Or.inr (Or.inl h)
      · exact Or.inl h
    · rintro (h | h | h)
      · exact Or.inr h
      · exact Or.inl h
      · rw [h]
        exact Or.inr hd
  · simp only [List.mem_cons] at hp2 ⊢
    constructor
    · rintro (h | h)
      · exact Or.inr (Or.inr h)
      · exact Or.inl h
    · rintro (h | h | h)
      · exact Or.inr h
      · rw [h]
        exact hp2
      · exact Or.inl h
  · simp only [List.mem_cons]
    constructor
    · rintro (h | h | h)
      · exact Or.inr (Or.inl h)
      · exact Or.inr (Or.inr h)
      · exact Or.inl h
    · rintro (h | h | h)
      · exact Or.inr (Or.inr h)
      · exact Or.inl h
      · exact Or.inr (Or.inl h)

/-- The parts of a `Histogram.plot` call common to both renderers. -/
lemma plot_parts (h : Histogram) (h_obj : HObj) (outdir : String)
    (fs : FileSystem) :
    (h.plot h_obj outdir fs).outpath = outdir ++ "/" ++ h.name ++ ".pdf" ∧
    (h.plot h_obj outdir fs).h_obj_after = h_obj ∧
    (h.plot h_obj outdir fs).fs =
      save_fig fs (outdir ++ "/" ++ h.name ++ ".pdf") := by
  unfold Histogram.plot Histogram._plot1d Histogram._plot2d
  by_cases hnd : h.ndim = 1 <;> simp [hnd]

/-- Claim C4: every call to `Histogram.plot` or `OverlayHistogram.plot`
writes exactly one image file, at `<outdir>/<name>.pdf`, creating the
output directory when missing, and modifies no other persistent state; the
attached histogram objects are unchanged by plotting. -/
theorem claim_c4 (h : Histogram) (h_obj : HObj) (o : OverlayHistogram)
    (histo_map : List (String × UHist1)) (outdir : String) (fs : FileSystem) :
    ((h.plot h_obj outdir fs).outpath = outdir ++ "/" ++ h.name ++ ".pdf") ∧
    ((h.plot h_obj outdir fs).h_obj_after = h_obj) ∧
    ((h.plot h_obj outdir fs).outpath ∈ (h.plot h_obj outdir fs).fs) ∧
    (∀ p, p ∈ (h.plot h_obj outdir fs).fs ↔
      p ∈ fs ∨ p = (h.plot h_obj outdir fs).outpath ∨
        p = dirname (h.plot h_obj outdir fs).outpath) ∧
    ((o.plot histo_map outdir fs).outpath = outdir ++ "/" ++ o.name ++ ".pdf") ∧
    ((o.plot histo_map outdir fs).histo_map_after = histo_map) ∧
    ((o.plot histo_map outdir fs).outpath ∈ (o.plot histo_map outdir fs).fs) ∧
    (∀ p, p ∈ (o.plot histo_map outdir fs).fs ↔
      p ∈ fs ∨ p = (o.plot histo_map outdir fs).outpath ∨
        p = dirname (o.plot histo_map outdir fs).outpath) := by
  obtain ⟨hp1, hp2, hp3⟩ := plot_parts h h_obj outdir fs
  have ho1 : (o.plot histo_map outdir fs).outpath =
      outdir ++ "/" ++ o.name ++ ".pdf" := rfl
  have ho2 : (o.plot histo_map outdir fs).histo_map_after = histo_map := rfl
  have ho3 : (o.plot histo_map outdir fs).fs =
      save_fig fs (outdir ++ "/" ++ o.name ++ ".pdf") := rfl
  refine ⟨hp1, hp2, ?_, ?_, ho1, ho2, ?_, ?_⟩
  · rw [hp3, hp1]
    exact (save_fig_mem fs _ _).mpr (Or.inr (Or.inl rfl))
  · intro p
    rw [hp3, hp1]
    exact save_fig_mem fs _ p
  · rw [ho3, ho1]
    exact (save_fig_mem fs _ _).mpr (Or.inr (Or.inl rfl))
  · intro p
    rw [ho3, ho1]
    exact save_fig_mem fs _ p

/-- Claim C7: when a 2D `Histogram` is plotted via `plot()`, the rendered
cell values are the transposed values divided by their total sum exactly
when the name contains `StripSize`, and the raw transposed values
otherwise. -/
theorem claim_c7 (h : Histogram) (h2 : UHist2) (outdir : String)
    (fs : FileSystem) (hnd : h.ndim = 2) :
    (strContains "StripSize" h.name = true →
      (h.plot (.two h2) outdir fs).rendered2d =
        some (matDivAll (transposeM h2.values)
          (matTotal (transposeM h2.values)))) ∧
    (strContains "StripSize" h.name = false →
      (h.plot (.two h2) outdir fs).rendered2d = some (transposeM h2.values)) := by
  have hne : ¬h.ndim = 1 := by rw [hnd]; decide
  unfold Histogram.plot Histogram._plot2d
  rw [if_neg hne]
  constructor <;> intro hc <;> simp [HObj.valuesT, hc]

/-- Concrete instantiation of `claim_c7`: a name containing `StripSize`
renders the normalized transposed values. -/
theorem claim_c7_witness :
    (Histogram.plot stripHist (.two ⟨[0, 1], [0, 1], [[4]]⟩) "out"
      ([] : FileSystem)).rendered2d =
      some (matDivAll (transposeM [[4]]) (matTotal (transposeM [[4]]))) :=
  (claim_c7 stripHist ⟨[0, 1], [0, 1], [[4]]⟩ "out" ([] : FileSystem) rfl).1
    (by decide)

/-- Claim C9: constructing a `Histogram` with `ndim` outside `{1, 2}`
raises `AssertionError` in `__post_init__`; every successfully constructed
`Histogram` has `ndim` in `{1, 2}`; and `plot()` dispatches to the 1D
renderer exactly when `ndim = 1` and to the 2D renderer otherwise. -/
theorem claim_c9 (name xlabel ylabel : String) (fontsize : ℤ)
    (plottag : Option String) (ndim : ℤ) (logscale : Bool)
    (vmin vmax : Option ℚ) (h_obj : HObj) (outdir : String)
    (fs : FileSystem) :
    (¬(ndim = 1 ∨ ndim = 2) →
      Histogram.construct name xlabel ylabel fontsize plottag ndim logscale
        vmin vmax = .error (.assertionError "Number of dimensions not accepted")) ∧
    (∀ h, Histogram.construct name xlabel ylabel fontsize plottag ndim
        logscale vmin vmax = .ok h → (h.ndim = 1 ∨ h.ndim = 2)) ∧
    (∀ h, Histogram.construct name xlabel ylabel fontsize plottag ndim
        logscale vmin vmax = .ok h →
      (((h.plot h_obj outdir fs).kind = .oneD ↔ h.ndim = 1) ∧
       ((h.plot h_obj outdir fs).kind = .twoD ↔ h.ndim ≠ 1))) := by
  have hkind : ∀ h : Histogram, (Histogram.plot h h_obj outdir fs).kind =
      if h.ndim = 1 then Renderer.oneD else Renderer.twoD := by
    intro h
    unfold Histogram.plot Histogram._plot1d Histogram._plot2d
    by_cases hnd : h.ndim = 1 <;> simp [hnd]
  have hiff : ∀ h : Histogram,
      ((Histogram.plot h h_obj outdir fs).kind = .oneD ↔ h.ndim = 1) ∧
      ((Histogram.plot h h_obj outdir fs).kind = .twoD ↔ h.ndim ≠ 1) := by
    intro h
    rw [hkind h]
    by_cases hnd : h.ndim = 1 <;> simp [hnd]
  unfold Histogram.construct
  by_cases hc : ndim = 1 ∨ ndim = 2
  · rw [if_pos hc]
    refine ⟨fun habs => absurd hc habs, ?_, fun h _ => hiff h⟩
    intro h heq
    have hh := Except.ok.inj heq
    rw [← hh]
    exact hc
  · rw [if_neg hc]
    exact ⟨fun _ => rfl, fun h heq => by simp at heq, fun h heq => by simp at heq⟩

/-- Concrete instantiation of `claim_c9`: `ndim = 5` is rejected and a
histogram constructed with `ndim = 1` dispatches to the 1D renderer. -/
theorem claim_c9_witness :
    Histogram.construct "n" "x" "y" 14 none 5 false none none =
      .error (.assertionError "Number of dimensions not accepted") ∧
    ((Histogram.plot ⟨"n", "x", "y", 14, none, 1, false, none, none⟩
        (.one ⟨[], []⟩) "out" ([] : FileSystem)).kind = .oneD ↔
      (⟨"n", "x", "y", 14, none, 1, false, none, none⟩ : Histogram).ndim = 1) := by
  refine ⟨(claim_c9 "n" "x" "y" 14 none 5 false none none
    (.one ⟨[], []⟩) "out" ([] : FileSystem)).1 (by decide), ?_⟩
  exact ((claim_c9 "n" "x" "y" 14 none 1 false none none
    (.one ⟨[], []⟩) "out" ([] : FileSystem)).2.2
      ⟨"n", "x", "y", 14, none, 1, false, none, none⟩ rfl).1

/-- Once the locals are bound, the `get_histos` loop cannot fail and its
reads are `readsFrom`. -/
lemma get_histos_go_some (ta : String × String) (files : List String) :
    get_histos_go (some ta) files = .ok (readsFrom ta files) := by
  induction files generalizing ta with
  | nil => rfl
  | cons fname rest ih =>
    unfold get_histos_go readsFrom tagFor
    by_cases hm : strContains "MET" fname = true
    · simp [hm, ih]
    · by_cases he : strContains "EGamma" fname = true
      · simp [hm, he, ih]
      · simp [hm, he, ih]

/-- When the first file matches a branch of the if-chain, `get_histos`
succeeds and performs exactly the `readsFrom` reads (the initial pair is
irrelevant because the first file overwrites it). -/
lemma get_histos_cons_match (f0 : String) (rest : List String)
    (hm : fileMatches f0 = true) :
    get_histos (f0 :: rest) = .ok (readsFrom ("", "") (f0 :: rest)) := by
  unfold get_histos get_histos_go readsFrom
  by_cases h1 : strContains "MET" f0 = true
  · simp [h1, tagFor, get_histos_go_some]
  · have h2 : strContains "EGamma" f0 = true := by
      unfold fileMatches at hm
      rw [Bool.or_eq_true] at hm
      rcases hm with hh | hh
      · exact absurd hh h1
      · exact hh
    simp [h1, h2, tagFor, get_histos_go_some]

/-- When the first file matches neither substring, `get_histos` reads the
locals before any assignment and raises `NameError`. -/
lemma get_histos_cons_nomatch (f0 : String) (rest : List String)
    (hm : fileMatches f0 = false) :
    get_histos (f0 :: rest) =
      .error (.nameError "name analyzer is not defined") := by
  have h1 : strContains "MET" f0 = false := by
    cases hh : strContains "MET" f0
    · rfl
    · unfold fileMatches at hm
      rw [hh] at hm
      simp at hm
  have h2 : strContains "EGamma" f0 = false := by
    cases hh : strContains "EGamma" f0
    · rfl
    · unfold fileMatches at hm
      rw [hh] at hm
      simp at hm
  unfold get_histos get_histos_go
  simp [h1, h2]

/-- Each `readsFrom` read of a file containing `MET` is tagged Noise
Enriched from `noisyRechitAnalyzer`, and of a file containing `EGamma` but
not `MET` is tagged Physics Enriched from `rechitAnalyzer`. -/
lemma readsFrom_tags (ta : String × String) (files : List String) :
    ∀ r ∈ readsFrom ta files,
      (strContains "MET" r.fname = true →
        r.tag = "Noise Enriched" ∧ r.analyzer = "noisyRechitAnalyzer") ∧
      (strContains "MET" r.fname = false →
        strContains "EGamma" r.fname = true →
        r.tag = "Physics Enriched" ∧ r.analyzer = "rechitAnalyzer") := by
  induction files generalizing ta with
  | nil => simp [readsFrom]
  | cons fname rest ih =>
    intro r hr
    simp only [readsFrom, List.mem_cons] at hr
    rcases hr with h | h
    · subst h
      constructor
      · intro hm
        simp only at hm
        constructor
        · simp [tagFor, hm]
        · simp [tagFor, hm]
      · intro hm he
        simp only at hm he
        constructor
        · simp [tagFor, hm, he]
        · simp [tagFor, hm, he]
    · exact ih (tagFor ta fname) r h

/-- Claim C10 counterexample: in `get_histos(['MET_run.root',
'plain.root'])` the second file contains neither `MET` nor `EGamma`, yet
the call succeeds and reads that file with the tag and analyzer left over
from the first file, instead of failing with an unbound-variable error. -/
theorem claim_c10_counterexample :
    strContains "MET" "plain.root" = false ∧
    strContains "EGamma" "plain.root" = false ∧
    get_histos ["MET_run.root", "plain.root"] =
      .ok [{ tag := "Noise Enriched", analyzer := "noisyRechitAnalyzer",
             fname := "MET_run.root" },
           { tag := "Noise Enriched", analyzer := "noisyRechitAnalyzer",
             fname := "plain.root" }] :=
  ⟨by decide, by decide, by rfl⟩

/-- Claim C10 (amended): `get_histos` succeeds exactly when the file list
is empty or its first file contains `MET` or `EGamma`; the `NameError`
occurs only when the first file matches neither substring, before any file
is opened; a file containing `MET` is read as Noise Enriched from
`noisyRechitAnalyzer`, a file containing `EGamma` but not `MET` as Physics
Enriched from `rechitAnalyzer`, and a file containing neither is read with
the tag and analyzer left over from the most recent preceding matching
file (the `readsFrom` semantics). -/
theorem claim_c10_amended (files : List String) :
    ((∃ rs, get_histos files = .ok rs) ↔
      (files = [] ∨ ∃ f0 rest, files = f0 :: rest ∧ fileMatches f0 = true)) ∧
    (∀ f0 rest, files = f0 :: rest → fileMatches f0 = false →
      get_histos files = .error (.nameError "name analyzer is not defined")) ∧
    (∀ f0 rest, files = f0 :: rest → fileMatches f0 = true →
      get_histos files = .ok (readsFrom ("", "") files)) ∧
    (∀ rs, get_histos files = .ok rs → ∀ r ∈ rs,
      (strContains "MET" r.fname = true →
        r.tag = "Noise Enriched" ∧ r.analyzer = "noisyRechitAnalyzer") ∧
      (strContains "MET" r.fname = false →
        strContains "EGamma" r.fname = true →
        r.tag = "Physics Enriched" ∧ r.analyzer = "rechitAnalyzer")) := by
  refine ⟨?_, ?_, ?_, ?_⟩
  · cases files with
    | nil =>
      constructor
      · intro _
        exact Or.inl rfl
      · intro _
        exact ⟨[], rfl⟩
    | cons f0 rest =>
      by_cases hm : fileMatches f0 = true
      · constructor
        · intro _
          exact Or.inr ⟨f0, rest, rfl, hm⟩
        · intro _
          exact ⟨_, get_histos_cons_match f0 rest hm⟩
      · have hm2 : fileMatches f0 = false := by
          cases hh : fileMatches f0
          · rfl
          · exact absurd hh hm
        constructor
        · rintro ⟨rs, hrs⟩
          rw [get_histos_cons_nomatch f0 rest hm2] at hrs
          simp at hrs
        · rintro (h | ⟨g0, grest, hg, hgm⟩)
          · simp at h
          · injection hg with e1 _
            subst e1
            exact absurd hgm hm
  · intro f0 rest hf hm
    subst hf
    exact get_histos_cons_nomatch f0 rest hm
  · intro f0 rest hf hm
    subst hf
    exact get_histos_cons_match f0 rest hm
  · intro rs hrs r hr
    cases files with
    | nil =>
      have hempty : ([] : List HistoRead) = rs := Except.ok.inj hrs
      rw [← hempty] at hr
      simp at hr
    | cons f0 rest =>
      by_cases hm : fileMatches f0 = true
      · rw [get_histos_cons_match f0 rest hm] at hrs
        have heq := Except.ok.inj hrs
        rw [← heq] at hr
        exact readsFrom_tags ("", "") (f0 :: rest) r hr
      · have hm2 : fileMatches f0 = false := by
          cases hh : fileMatches f0
          · rfl
          · exact absurd hh hm
        rw [get_histos_cons_nomatch f0 rest hm2] at hrs
        simp at hrs

/-- Concrete instantiation of `claim_c10_amended`: a first file containing
`EGamma` succeeds, a first file containing neither substring raises
`NameError`. -/
theorem claim_c10_witness :
    get_histos ["EGamma_run.root"] =
      .ok (readsFrom ("", "") ["EGamma_run.root"]) ∧
    get_histos ["plain.root"] =
      .error (.nameError "name analyzer is not defined") :=
  ⟨(claim_c10_amended ["EGamma_run.root"]).2.2.1 "EGamma_run.root" [] rfl
      (by decide),
   (claim_c10_amended ["plain.root"]).2.1 "plain.root" [] rfl (by decide)⟩

end HLTRecHitPlotter
